import Mathlib

/-!
Verification of `scripts/daily_papers_email.py` (DailyPaper repository).

The script fetches the Hugging Face daily-papers JSON feed, normalizes the
payload into uniform paper records, walks backwards over calendar dates until
a non-empty day is found, renders an HTML and a plain-text digest, and sends
the digest by mail.

This file gives a shallow embedding of the pure logic of that script:

* `Json` models an already-parsed Python JSON value (`dict`s as association
  lists, numbers as integers — no claim here depends on float behaviour).
* `normalize` embeds the payload-parsing part of `fetch_papers_for_date`
  (lines 22-60 of the script); the HTTP transport itself is out of scope and
  is treated as an oracle parameter where needed.
* `get_daily_papers_with_fallback` embeds the date-fallback walk (lines
  62-71), with calendar days modelled as integers (today, today-1, ...) and
  the fetch modelled as an oracle `Int → Except ε (List RawPaper)`; the
  embedding additionally records the trace of dates fetched, so that claims
  about the number and order of fetch calls can be stated.
* `build_email_html` / `build_email_text` embed the two renderers
  (lines 73-132) over string-typed `PaperRecord`s.
* `send_email` embeds the configuration precondition and message-assembly
  part of the dispatcher (lines 134-152); the actual SMTP session is out of
  scope and is represented by the `SendPlan` value describing the connection
  that would be attempted.

Python-specific semantics (truthiness, `x or y`, iteration over non-list
values, `", ".join` failing on non-strings) are embedded explicitly.
-/

namespace DailyPaper

/-- An already-parsed Python JSON value.  Objects are association lists
(first occurrence of a key wins, as in a Python `dict` no duplicate key can
even arise); numbers are modelled as integers. -/
inductive Json where
  | null
  | bool (b : Bool)
  | num (n : Int)
  | str (s : String)
  | arr (elems : List Json)
  | obj (fields : List (String × Json))

/-- Python truthiness of a JSON value (`bool(x)`). -/
def Json.truthy : Json → Bool
  | .null => false
  | .bool b => b
  | .num n => n != 0
  | .str s => s != ""
  | .arr xs => !xs.isEmpty
  | .obj fs => !fs.isEmpty

/-- Is this value a string? -/
def Json.isStr : Json → Bool
  | .str _ => true
  | _ => false

/-- Association-list lookup, first match wins (models key lookup in a
Python `dict`). -/
def Json.lookup (fields : List (String × Json)) (k : String) : Option Json :=
  (fields.find? (fun p => p.1 = k)).map (·.2)

/-- Python `d.get(k)` on a dict: the stored value, or `None` when the key is
absent.  On non-dicts the script only calls `.get` after an `isinstance`
check, so the non-dict case is unreachable there; it returns `null`. -/
def Json.get : Json → String → Json
  | .obj fs, k => (Json.lookup fs k).getD .null
  | _, _ => .null

/-- Python `a or b` on JSON values: `a` when truthy, else `b`. -/
def jor (a b : Json) : Json :=
  if a.truthy then a else b

/-- Python iteration `for it in v`: lists yield their elements, strings yield
their characters (as one-character strings), dicts yield their keys; other
values (`None`, booleans, numbers) raise `TypeError`. -/
def pyIter : Json → Except Unit (List Json)
  | .arr xs => .ok xs
  | .str s => .ok (s.data.map (fun c => .str (String.singleton c)))
  | .obj fs => .ok (fs.map (fun p => .str p.1))
  | _ => .error ()

/-- Lines 22-27 of the script: the value iterated over.
`items = data.get("items") or []` when `data` is a dict with an `items` key;
`data` itself when it is a list; `[]` otherwise. -/
def itemsOf (data : Json) : Json :=
  match data with
  | .obj fs =>
      if (Json.lookup fs "items").isSome then
        jor ((Json.lookup fs "items").getD .null) (.arr [])
      else .arr []
  | .arr xs => .arr xs
  | _ => .arr []

/-- Lines 30-31: the object the paper fields are read from — the nested
`paper` value when the entry is a dict and that value is a dict, else the
entry itself when it is a dict, else an empty dict. -/
def paperObjOf (it : Json) : Json :=
  let paper :=
    match it with
    | .obj fs => (Json.lookup fs "paper").getD .null
    | _ => .null
  match paper with
  | .obj pfs => .obj pfs
  | _ =>
    match it with
    | .obj fs => .obj fs
    | _ => .obj []

/-- Line 32: `obj.get("title") or obj.get("name") or ""`. -/
def titleOf (o : Json) : Json :=
  jor (jor (o.get "title") (o.get "name")) (.str "")

/-- Line 48: `obj.get("abstract") or obj.get("summary") or obj.get("description") or ""`. -/
def abstractOf (o : Json) : Json :=
  jor (jor (jor (o.get "abstract") (o.get "summary")) (o.get "description")) (.str "")

/-- Lines 37-40: the name appended for one element of a list-shaped authors
value when it is a dict: `n = a.get("name") or a.get("fullName") or
a.get("displayName")`, kept only `if n:`.  Plain strings are kept as-is
(line 41-42); everything else is dropped. -/
def resolveName (a : Json) : Option Json :=
  match a with
  | .obj _ =>
      let n := jor (jor (a.get "name") (a.get "fullName")) (a.get "displayName")
      if n.truthy then some n else none
  | .str s => some (.str s)
  | _ => none

/-- The string carried by a string value. -/
def strOfJson : Json → Option String
  | .str s => some s
  | _ => none

/-- Joining a list of strings with a separator (`sep.join(names)` on an
all-string list). -/
def sepJoin (sep : String) : List String → String
  | [] => ""
  | [s] => s
  | s :: rest => s ++ sep ++ sepJoin sep rest

/-- All-or-nothing extraction of the strings of a list of JSON values. -/
def mapStrs : List Json → Option (List String)
  | [] => some []
  | x :: xs =>
    match strOfJson x with
    | none => none
    | some s =>
      match mapStrs xs with
      | none => none
      | some ss => some (s :: ss)

/-- Python `sep.join(names)`: fails with a `TypeError` as soon as an element
is not a string. -/
def pyJoin (sep : String) (names : List Json) : Except Unit String :=
  match mapStrs names with
  | some ss => .ok (sepJoin sep ss)
  | none => .error ()

/-- Lines 33-47: the joined authors string of a paper object.
`authors = obj.get("authors") or []`; a list is mapped through
`resolveName` and joined with `", "` (which fails on non-string names);
a string is used verbatim; any other shape yields `""`. -/
def authorsStrOf (o : Json) : Except Unit String :=
  match jor (o.get "authors") (.arr []) with
  | .arr as => pyJoin ", " (as.filterMap resolveName)
  | .str s => .ok s
  | _ => .ok ""

mutual

/-- Python `str(x)` of the values plausibly found in an id field, used when
the script interpolates `pid` into the canonical URL template (line 53).
Container values use their `repr`; string escaping inside that `repr` is not
modelled exactly (no claim depends on it). -/
def pyStr : Json → String
  | .null => "None"
  | .bool true => "True"
  | .bool false => "False"
  | .num n => toString n
  | .str s => s
  | .arr xs => "[" ++ pyStrElems xs ++ "]"
  | .obj fs => "\x7b" ++ pyStrFields fs ++ "\x7d"

def pyStrElems : List Json → String
  | [] => ""
  | [x] => pyStr x
  | x :: xs => pyStr x ++ ", " ++ pyStrElems xs

def pyStrFields : List (String × Json) → String
  | [] => ""
  | [(k, v)] => k ++ ": " ++ pyStr v
  | (k, v) :: fs => k ++ ": " ++ pyStr v ++ ", " ++ pyStrFields fs

end

/-- Lines 49-53 and 58: the url field of a record: `url`, else `paperUrl`,
else `arxivUrl`; when still falsy, a link synthesised from `id` / `paperId`
when one is truthy; `url or ""` stored. -/
def urlOf (o : Json) : Json :=
  let url := jor (o.get "url") (jor (o.get "paperUrl") (o.get "arxivUrl"))
  let url :=
    if url.truthy then url
    else
      let pid := jor (o.get "id") (o.get "paperId")
      if pid.truthy then .str ("https://huggingface.co/papers/" ++ pyStr pid) else url
  jor url (.str "")

/-- One normalized record as the script appends it (lines 54-59).  The
`authors` field is always a genuine string (it comes out of a join or a
verbatim string); the other three fields hold whatever truthy value the
lookup chains selected, or `str ""`. -/
structure RawPaper where
  title : Json
  authors : String
  abstract : Json
  url : Json

/-- Lines 30-59 for a single entry of the items list (`paperObjOf it` is the
`obj` the fields are read from). -/
def normalizeEntry (it : Json) : Except Unit RawPaper :=
  match authorsStrOf (paperObjOf it) with
  | .error e => .error e
  | .ok astr =>
    .ok ⟨titleOf (paperObjOf it), astr, abstractOf (paperObjOf it), urlOf (paperObjOf it)⟩

/-- Sequential traversal of the items list, stopping at the first entry that
raises (as the Python `for` loop does). -/
def mapEntries : List Json → Except Unit (List RawPaper)
  | [] => .ok []
  | x :: xs =>
    match normalizeEntry x with
    | .error e => .error e
    | .ok r =>
      match mapEntries xs with
      | .error e => .error e
      | .ok rs => .ok (r :: rs)

/-- The payload-normalization part of `fetch_papers_for_date`
(lines 22-60): shape dispatch, then per-entry field extraction. -/
def normalize (data : Json) : Except Unit (List RawPaper) :=
  match pyIter (itemsOf data) with
  | .error e => .error e
  | .ok items => mapEntries items

/-- The accepted top-level payload shapes as the spec words them: an object
containing an `items` key whose value is a sequence, or a bare sequence.
(Spec-side definition, used to state claim C1.) -/
def acceptedShape : Json → Bool
  | .arr _ => true
  | .obj fs =>
    match Json.lookup fs "items" with
    | some (.arr _) => true
    | _ => false
  | _ => false

/-- The payloads the script actually degrades gracefully on: everything
except a bare sequence and an object whose `items` key holds a truthy
value. -/
def benignShape : Json → Bool
  | .arr _ => false
  | .obj fs => !((Json.lookup fs "items").getD .null).truthy
  | _ => true

/-- The date-fallback loop of `get_daily_papers_with_fallback` (lines
65-70): `i` counts up from the given start for `remaining` iterations; each
iteration fetches `today - i`, returns that date with its papers when the
list is non-empty, propagates a fetch error, and otherwise continues; an
exhausted walk yields `(today, [])` (line 71).  Calendar days are modelled
as integers; the first component of the result is the trace of dates
fetched, in order. -/
def fallbackLoop {ε : Type} (fetch : Int → Except ε (List RawPaper)) (today : Int) :
    Nat → Nat → List Int × Except ε (Int × List RawPaper)
  | _, 0 => ([], .ok (today, []))
  | i, r + 1 =>
    match fetch (today - (i : Int)) with
    | .error e => ([today - (i : Int)], .error e)
    | .ok papers =>
      if papers.isEmpty then
        let rest := fallbackLoop fetch today (i + 1) r
        ((today - (i : Int)) :: rest.1, rest.2)
      else ([today - (i : Int)], .ok (today - (i : Int), papers))

/-- Lines 62-71: run the fallback walk for `i` in `range(0, max_days_back + 1)`.
`fetch` stands for `fetch_papers_for_date` (network transport plus
`normalize`), as an oracle from the candidate day to its outcome. -/
def get_daily_papers_with_fallback {ε : Type} (fetch : Int → Except ε (List RawPaper))
    (today : Int) (max_days_back : Int) : List Int × Except ε (Int × List RawPaper) :=
  fallbackLoop fetch today 0 (max_days_back + 1).toNat

/-- The normalized unit of output of the spec's data model: all four fields
present, string-valued.  The two renderers consume these. -/
structure PaperRecord where
  title : String
  authors : String
  abstract : String
  url : String
deriving DecidableEq

/-- Lines 74-88: the style sheet embedded in the HTML digest. -/
def cssStyles : String :=
  "body\x7bfont-family:-apple-system,BlinkMacSystemFont,Segoe UI,Roboto,Helvetica,Arial,sans-serif;margin:0;padding:0;background:#f6f8fa;color:#24292e;\x7d" ++
  ".container\x7bmax-width:820px;margin:0 auto;padding:24px;\x7d" ++
  ".header\x7bdisplay:flex;align-items:center;gap:12px;margin-bottom:16px;\x7d" ++
  ".badge\x7bbackground:#2f81f7;color:#fff;font-weight:600;border-radius:999px;padding:4px 10px;font-size:12px;\x7d" ++
  ".title\x7bmargin:0;font-size:22px;line-height:1.3;\x7d" ++
  ".subtitle\x7bmargin:4px 0 0 0;color:#57606a;font-size:13px;\x7d" ++
  ".card\x7bbackground:#fff;border:1px solid #d0d7de;border-radius:10px;padding:16px;margin:12px 0;box-shadow:0 1px 0 rgba(27,31,36,.04);\x7d" ++
  ".paper-title\x7bmargin:0 0 8px;font-size:16px;color:#0969da;text-decoration:none;\x7d" ++
  ".paper-title:hover\x7btext-decoration:underline;\x7d" ++
  ".meta\x7bcolor:#57606a;font-size:13px;margin-bottom:8px;\x7d" ++
  ".abstract\x7bfont-size:14px;line-height:1.55;color:#24292e;\x7d" ++
  ".footer\x7bmargin-top:24px;color:#57606a;font-size:12px;\x7d" ++
  ".empty\x7bbackground:#fff; border:1px dashed #d0d7de; border-radius:10px; padding:20px; text-align:center; color:#57606a;\x7d"

/-- Line 95: the title element of one card — an anchor whose `href` is the
paper's url when that url is non-empty (truthy), a plain `div` otherwise. -/
def paperTitleHtml (p : PaperRecord) : String :=
  if p.url = "" then "<div class=\"paper-title\">" ++ p.title ++ "</div>"
  else "<a class=\"paper-title\" href=\"" ++ p.url ++ "\" target=\"_blank\">" ++ p.title ++ "</a>"

/-- Lines 90-98: one card of the HTML digest.  (On string-typed records the
script's `p.get("url") or ""` is the field itself: `s or ""` is `s` for
every string `s`.) -/
def paperCard (p : PaperRecord) : String :=
  "<div class=\"card\">" ++ paperTitleHtml p ++ "<div class=\"meta\">" ++ p.authors ++
    "</div><div class=\"abstract\">" ++ p.abstract ++ "</div></div>"

/-- Python `"".join(parts)`. -/
def strConcat : List String → String
  | [] => ""
  | s :: rest => s ++ strConcat rest

/-- Lines 99-101: the body of the HTML digest — the placeholder block when
`parts` (the card list) is empty, the concatenated cards otherwise. -/
def htmlBody (date_str : String) (papers : List PaperRecord) : String :=
  if (papers.map paperCard).isEmpty then
    "<div class=\"empty\">" ++ date_str ++ " 暂无可用的 Daily Papers。</div>"
  else strConcat (papers.map paperCard)

/-- Lines 73-113: `build_email_html`. -/
def build_email_html (date_str : String) (papers : List PaperRecord) : String :=
  "<html><head><meta charset=\"utf-8\"><meta name=\"viewport\" content=\"width=device-width,initial-scale=1\">" ++
    "<style>" ++ cssStyles ++ "</style></head>" ++
    "<body>" ++
    "<div class=\"container\">" ++
    "<div class=\"header\"><span class=\"badge\">Daily</span><h1 class=\"title\">Hugging Face Daily Papers - " ++ date_str ++ "</h1></div>" ++
    "<div class=\"content\">" ++ htmlBody date_str papers ++ "</div>" ++
    "<div class=\"footer\">如需调整推送时间或筛选规则，请联系维护者。</div>" ++
    "</div>" ++
    "</body></html>"

/-- Lines 126-131: the field lines appended for one paper — each only when
the field is non-empty — authors, abstract and link, in that fixed order. -/
def paperFieldLines (p : PaperRecord) : List String :=
  (if p.authors = "" then [] else ["  作者: " ++ p.authors]) ++
    (if p.abstract = "" then [] else ["  摘要: " ++ p.abstract]) ++
    (if p.url = "" then [] else ["  链接: " ++ p.url])

/-- Lines 120-131: the lines appended to the plain-text digest for one
paper: the title line, then the field lines. -/
def paperTextLines (p : PaperRecord) : List String :=
  ("- " ++ p.title) :: paperFieldLines p

/-- Lines 115-131: the `lines` list of `build_email_text`: the header, then
either the one no-papers placeholder line or the per-paper blocks in input
order. -/
def emailTextLines (date_str : String) (papers : List PaperRecord) : List String :=
  if papers.isEmpty then
    ["Hugging Face Daily Papers - " ++ date_str, date_str ++ " 暂无可用的 Daily Papers。"]
  else
    ("Hugging Face Daily Papers - " ++ date_str) :: (papers.map paperTextLines).flatten

/-- Python `"\n".join(lines)`. -/
def joinNL : List String → String
  | [] => ""
  | [s] => s
  | s :: rest => s ++ "\n" ++ joinNL rest

/-- Line 132: `build_email_text` returns the lines joined with newlines. -/
def build_email_text (date_str : String) (papers : List PaperRecord) : String :=
  joinNL (emailTextLines date_str papers)

/-- The marker opening a title line of the plain-text digest. -/
def titleMark : List Char := ['-', ' ']

/-- The marker opening an authors line of the plain-text digest. -/
def authorsMark : List Char := ("  作者: ").data

/-- The marker opening an abstract line of the plain-text digest. -/
def abstractMark : List Char := ("  摘要: ").data

/-- The marker opening a link line of the plain-text digest. -/
def urlMark : List Char := ("  链接: ").data

/-- Splitting a character stream at every occurrence of a separator
character (Python `s.split(sep)` for a one-character separator). -/
def splitChar (sep : Char) : List Char → List (List Char)
  | [] => [[]]
  | c :: cs =>
    if c = sep then [] :: splitChar sep cs
    else
      match splitChar sep cs with
      | [] => [[c]]
      | l :: ls => (c :: l) :: ls

/-- Modelled from the spec: splitting the digest into lines, the first half
of the test-purpose re-parser of the plain-text digest that the spec's
round-trip property appeals to (no such parser exists in `src/`). -/
def splitNL (cs : List Char) : List (List Char) :=
  splitChar '\n' cs

/-- Modelled from the spec: one step of the re-parser — a line carrying a
field marker fills that field of the record under construction; any other
line is ignored. -/
def updateRec (cur : PaperRecord) (l : List Char) : PaperRecord :=
  if authorsMark.isPrefixOf l then
    ⟨cur.title, String.mk (l.drop authorsMark.length), cur.abstract, cur.url⟩
  else if abstractMark.isPrefixOf l then
    ⟨cur.title, cur.authors, String.mk (l.drop abstractMark.length), cur.url⟩
  else if urlMark.isPrefixOf l then
    ⟨cur.title, cur.authors, cur.abstract, String.mk (l.drop urlMark.length)⟩
  else cur

/-- Modelled from the spec: the record opened by a `"- "` title line: its
title, all other fields empty. -/
def startRec (l : List Char) : PaperRecord :=
  ⟨String.mk (l.drop 2), "", "", ""⟩

/-- Modelled from the spec: re-parse the lines following an opened record; a
new `"- "` line flushes the current record and opens the next one. -/
def parseMore (cur : PaperRecord) : List (List Char) → List PaperRecord
  | [] => [cur]
  | l :: ls =>
    if titleMark.isPrefixOf l then cur :: parseMore (startRec l) ls
    else parseMore (updateRec cur l) ls

/-- Modelled from the spec: skip leading non-title lines (header,
placeholder) and parse the paper blocks. -/
def parseTop : List (List Char) → List PaperRecord
  | [] => []
  | l :: ls =>
    if titleMark.isPrefixOf l then parseMore (startRec l) ls
    else parseTop ls

/-- Modelled from the spec: the full test-purpose re-parser of the
plain-text digest. -/
def parseDigestText (s : String) : List PaperRecord :=
  parseTop (splitNL s.data)

/-- The mail configuration read from the environment in lines 135-140.  An
unset variable reads as the empty string (`SMTP_PORT` as `0`); `MAIL_FROM`
set or unset is modelled by `mail_from_env` being non-empty or empty, which
matches `os.getenv("MAIL_FROM") or smtp_user`. -/
structure MailConfig where
  smtp_host : String
  smtp_port : Int
  smtp_user : String
  smtp_pass : String
  mail_from_env : String
  mail_to_raw : String

/-- Python `s.strip()` (whitespace trimmed from both ends). -/
def pyStrip (s : String) : String :=
  String.mk (((s.data.dropWhile Char.isWhitespace).reverse.dropWhile Char.isWhitespace).reverse)

/-- Line 141: recipients parsed from the delimiter-tolerant `MAIL_TO`
string: semicolons replaced by commas (`raw.replace(";", ",")`, a
character-for-character substitution), split on commas, entries stripped,
empty entries dropped. -/
def parseRecipients (raw : String) : List String :=
  ((splitChar ',' (raw.data.map (fun c => if c = ';' then ',' else c))).map
      (fun l => pyStrip (String.mk l))).filter (fun x => x ≠ "")

/-- The multi-part message assembled in lines 144-151: subject, from
address, joined recipient line, and the two alternative bodies (plain text
first, HTML second). -/
structure MimeMessage where
  subject : String
  from_addr : String
  to_line : String
  text_body : String
  html_body : String

/-- The SMTP session that lines 152-167 would open: host, port, implicit
TLS exactly when the port is 465, the credentials used to authenticate, the
envelope, and the message.  The transport itself is out of scope; producing
a `SendPlan` models reaching the network phase. -/
structure SendPlan where
  host : String
  port : Int
  user : String
  recipients : List String
  use_ssl : Bool
  message : MimeMessage

/-- Lines 134-152 of `send_email`: configuration validation and message
assembly.  A missing host, zero port, missing username or password, or an
empty parsed recipient list raises the configuration error before any
network activity (line 142-143); otherwise the function proceeds to the
network phase, described by the returned `SendPlan`. -/
def send_email (cfg : MailConfig) (subject html_body text_body : String) :
    Except String SendPlan :=
  let mail_from := if cfg.mail_from_env = "" then cfg.smtp_user else cfg.mail_from_env
  let recipients := parseRecipients cfg.mail_to_raw
  if cfg.smtp_host = "" ∨ cfg.smtp_port = 0 ∨ cfg.smtp_user = "" ∨ cfg.smtp_pass = "" ∨
      recipients = [] then
    .error "邮件发送配置不完整"
  else
    .ok ⟨cfg.smtp_host, cfg.smtp_port, cfg.smtp_user, recipients, cfg.smtp_port == 465,
      ⟨subject, mail_from, sepJoin ", " recipients, text_body, html_body⟩⟩

/-- The string `frag` occurs contiguously inside `s`. -/
def containsSeg (frag s : String) : Prop :=
  ∃ pre post, s = pre ++ frag ++ post

/-! ## Helper lemmas -/

theorem containsSeg_self_between (frag x y : String) : containsSeg frag (x ++ frag ++ y) :=
  ⟨x, y, rfl⟩

theorem containsSeg_append_left {frag s : String} (x : String) (h : containsSeg frag s) :
    containsSeg frag (x ++ s) := by
  obtain ⟨pre, post, rfl⟩ := h
  exact ⟨x ++ pre, post, by simp [String.append_assoc]⟩

theorem containsSeg_append_right {frag s : String} (y : String) (h : containsSeg frag s) :
    containsSeg frag (s ++ y) := by
  obtain ⟨pre, post, rfl⟩ := h
  exact ⟨pre, post ++ y, by simp [String.append_assoc]⟩

theorem containsSeg_trans {a b c : String} (hab : containsSeg a b) (hbc : containsSeg b c) :
    containsSeg a c := by
  obtain ⟨p1, q1, rfl⟩ := hab
  obtain ⟨p2, q2, rfl⟩ := hbc
  exact ⟨p2 ++ p1, q1 ++ q2, by simp [String.append_assoc]⟩

theorem jor_of_truthy_false {a : Json} (b : Json) (h : a.truthy = false) : jor a b = b := by
  simp [jor, h]

theorem truthy_ne_null {a : Json} (h : a.truthy = true) : a ≠ .null := by
  intro hn
  subst hn
  simp [Json.truthy] at h

theorem field_default_props (a : Json) :
    jor a (.str "") ≠ .null ∧ ((jor a (.str "")).truthy = false → jor a (.str "") = .str "") := by
  by_cases h : a.truthy = true
  · have hj : jor a (.str "") = a := by simp [jor, h]
    rw [hj]
    exact ⟨truthy_ne_null h, fun hf => absurd (h.symm.trans hf) (by simp)⟩
  · have hj : jor a (.str "") = .str "" := jor_of_truthy_false _ (by simpa using h)
    rw [hj]
    exact ⟨fun hc => Json.noConfusion hc, fun _ => rfl⟩

theorem normalizeEntry_ok {it : Json} {r : RawPaper} (h : normalizeEntry it = .ok r) :
    r.title = titleOf (paperObjOf it) ∧ r.abstract = abstractOf (paperObjOf it) ∧
      r.url = urlOf (paperObjOf it) := by
  unfold normalizeEntry at h
  split at h
  · exact Except.noConfusion h
  · injection h with h2
    subst h2
    exact ⟨rfl, rfl, rfl⟩

theorem mapEntries_mem {xs : List Json} {rs : List RawPaper} (h : mapEntries xs = .ok rs) :
    ∀ r ∈ rs, ∃ x, normalizeEntry x = .ok r := by
  induction xs generalizing rs with
  | nil =>
    unfold mapEntries at h
    injection h with h2
    subst h2
    intro r hr
    cases hr
  | cons x xs ih =>
    unfold mapEntries at h
    split at h
    · exact Except.noConfusion h
    · rename_i r0 heq
      split at h
      · exact Except.noConfusion h
      · rename_i rs0 heq2
        injection h with h2
        subst h2
        intro r hr
        rcases List.mem_cons.mp hr with rfl | hr2
        · exact ⟨x, heq⟩
        · exact ih heq2 r hr2

theorem mapStrs_all_str (xs : List Json) (h : ∀ n ∈ xs, n.isStr = true) :
    mapStrs xs = some (xs.filterMap strOfJson) := by
  induction xs with
  | nil => rfl
  | cons x xs ih =>
    have hx := h x (List.mem_cons_self x xs)
    have ihx := ih (fun n hn => h n (List.mem_cons_of_mem _ hn))
    cases x <;> simp [Json.isStr] at hx
    simp [mapStrs, strOfJson, List.filterMap_cons, ihx]

theorem fallbackLoop_skip {ε : Type} (fetch : Int → Except ε (List RawPaper)) (today : Int)
    (k : Nat) : ∀ (i r : Nat), k ≤ r →
    (∀ j : Nat, j < k → fetch (today - ((i : Int) + j)) = .ok []) →
    fallbackLoop fetch today i r =
      ((List.range k).map (fun j : Nat => today - ((i : Int) + j)) ++
          (fallbackLoop fetch today (i + k) (r - k)).1,
        (fallbackLoop fetch today (i + k) (r - k)).2) := by
  induction k with
  | zero =>
    intro i r _ _
    simp
  | succ k ih =>
    intro i r hkr hempty
    obtain ⟨r2, rfl⟩ : ∃ r2, r = r2 + 1 := ⟨r - 1, by omega⟩
    have h0 : fetch (today - (i : Int)) = .ok [] := by
      have h := hempty 0 (Nat.succ_pos k)
      simpa using h
    have step : fallbackLoop fetch today i (r2 + 1) =
        ((today - (i : Int)) :: (fallbackLoop fetch today (i + 1) r2).1,
          (fallbackLoop fetch today (i + 1) r2).2) := by
      simp [fallbackLoop, h0]
    have ih2 := ih (i + 1) r2 (by omega) (fun j hj => by
      have h := hempty (j + 1) (by omega)
      have hcast : today - ((i : Int) + ((j : Int) + 1)) =
          today - (((i + 1 : Nat) : Int) + j) := by
        push_cast
        ring
      rw [show ((j + 1 : Nat) : Int) = (j : Int) + 1 by push_cast; ring, hcast] at h
      exact h)
    have hmap : (List.range (k + 1)).map (fun j : Nat => today - ((i : Int) + j)) =
        (today - (i : Int)) ::
          (List.range k).map (fun j : Nat => today - (((i + 1 : Nat) : Int) + j)) := by
      rw [List.range_succ_eq_map, List.map_cons, List.map_map]
      simp only [Nat.cast_zero, add_zero]
      refine congrArg _ (List.map_congr_left ?_)
      intro j _
      simp only [Function.comp_apply]
      push_cast
      ring
    have hik : i + 1 + k = i + (k + 1) := by omega
    have hrk : r2 - k = r2 + 1 - (k + 1) := by omega
    rw [step, ih2, hmap, hik, hrk]
    simp

/-- The whole walk over an all-empty range: every date in the range is
fetched, in order, and the walk falls through to `(today, [])`. -/
theorem fallbackLoop_all_empty {ε : Type} (fetch : Int → Except ε (List RawPaper))
    (today : Int) (r : Nat) (h : ∀ j : Nat, j < r → fetch (today - (j : Int)) = .ok []) :
    fallbackLoop fetch today 0 r =
      ((List.range r).map (fun j : Nat => today - (j : Int)), .ok (today, [])) := by
  have hs := fallbackLoop_skip fetch today r 0 r le_rfl (fun j hj => by
    have hj2 := h j hj
    simpa using hj2)
  simp only [Nat.sub_self, Nat.zero_add] at hs
  rw [hs]
  simp [fallbackLoop]

/-! ## Claim C1 -/

/-- Claim C1, counterexample: the payload `{"items": 5}` is not an accepted
shape (its `items` value is not a sequence), yet `normalize` does not return
an empty sequence — it fails, because the script iterates the truthy
non-list `items` value directly. -/
theorem claim_C1_counterexample :
    acceptedShape (Json.obj [("items", Json.num 5)]) = false ∧
      normalize (Json.obj [("items", Json.num 5)]) = .error () :=
  ⟨rfl, rfl⟩

/-- Claim C1 (amended): for every already-parsed payload that is neither a
bare sequence nor an object whose `items` key holds a truthy value — in
particular every scalar, `null`, and object without that key — `normalize`
returns an empty sequence and never fails. -/
theorem claim_C1 (data : Json) (h : benignShape data = true) : normalize data = .ok [] := by
  cases data with
  | null => rfl
  | bool b => rfl
  | num n => rfl
  | str s => rfl
  | arr xs => simp [benignShape] at h
  | obj fs =>
    simp only [benignShape] at h
    rcases heq : Json.lookup fs "items" with _ | v
    · simp [normalize, itemsOf, heq, pyIter, mapEntries]
    · rw [heq] at h
      simp only [Option.getD_some, Bool.not_eq_true'] at h
      simp [normalize, itemsOf, heq, jor_of_truthy_false _ h, pyIter, mapEntries]

theorem claim_C1_witness :
    benignShape (Json.num 7) = true ∧ normalize (Json.num 7) = .ok [] :=
  ⟨rfl, claim_C1 (Json.num 7) rfl⟩

/-! ## Claim C2 -/

/-- Claim C2, counterexample: on the payload `[{"title": 5}]` the produced
record binds `title` to the number `5`, not to a string. -/
theorem claim_C2_counterexample :
    normalize (Json.arr [Json.obj [("title", Json.num 5)]]) =
      .ok [⟨Json.num 5, "", Json.str "", Json.str ""⟩] ∧
      (Json.num 5).isStr = false :=
  ⟨rfl, rfl⟩

/-- Claim C2 (amended): for every payload on which `normalize` succeeds,
every produced record has all four fields present, `authors` is always a
string (by the type of `RawPaper`), and `title`, `abstract` and `url` are
never null/`None` — any unresolvable (falsy) upstream value is mapped to the
empty string.  (They are, however, not guaranteed to be strings when a
truthy non-string value sits upstream, per the counterexample.) -/
theorem claim_C2 (data : Json) (recs : List RawPaper) (h : normalize data = .ok recs) :
    ∀ r ∈ recs,
      (r.title ≠ .null ∧ (r.title.truthy = false → r.title = .str "")) ∧
      (r.abstract ≠ .null ∧ (r.abstract.truthy = false → r.abstract = .str "")) ∧
      (r.url ≠ .null ∧ (r.url.truthy = false → r.url = .str "")) := by
  intro r hr
  unfold normalize at h
  split at h
  · exact Except.noConfusion h
  · obtain ⟨x, hx⟩ := mapEntries_mem h r hr
    obtain ⟨ht, hab, hu⟩ := normalizeEntry_ok hx
    refine ⟨?_, ?_, ?_⟩
    · rw [ht]; exact field_default_props _
    · rw [hab]; exact field_default_props _
    · rw [hu]; exact field_default_props _

theorem claim_C2_witness :
    (Json.str "T" ≠ Json.null ∧ ((Json.str "T").truthy = false → Json.str "T" = Json.str "")) ∧
    (Json.str "" ≠ Json.null ∧ ((Json.str "").truthy = false → Json.str "" = Json.str "")) ∧
    (Json.str "" ≠ Json.null ∧ ((Json.str "").truthy = false → Json.str "" = Json.str "")) :=
  claim_C2 (Json.arr [Json.obj [("title", Json.str "T")]])
    [⟨Json.str "T", "", Json.str "", Json.str ""⟩] rfl
    ⟨Json.str "T", "", Json.str "", Json.str ""⟩ (List.mem_singleton.mpr rfl)

/-! ## Claim C3 -/

/-- Claim C3: the fallback walk tries candidate dates `today, today - 1, ...`
in order, and returns immediately with the first candidate date whose paper
list is non-empty, paired with that list; the trace shows exactly `k + 1`
fetch calls when the hit is at `today - k`. -/
theorem claim_C3 {ε : Type} (fetch : Int → Except ε (List RawPaper)) (today : Int)
    (max_days_back : Int) (k : Nat) (ps : List RawPaper)
    (hk : (k : Int) ≤ max_days_back)
    (hempty : ∀ j : Nat, j < k → fetch (today - (j : Int)) = .ok [])
    (hhit : fetch (today - (k : Int)) = .ok ps) (hps : ps ≠ []) :
    get_daily_papers_with_fallback fetch today max_days_back =
      ((List.range (k + 1)).map (fun j : Nat => today - (j : Int)),
        .ok (today - (k : Int), ps)) := by
  unfold get_daily_papers_with_fallback
  have hs := fallbackLoop_skip fetch today k 0 ((max_days_back + 1).toNat) (by omega)
    (fun j hj => by simpa using hempty j hj)
  rw [hs]
  obtain ⟨m, hm⟩ : ∃ m, (max_days_back + 1).toNat - k = m + 1 :=
    ⟨(max_days_back + 1).toNat - k - 1, by omega⟩
  have hstep : fallbackLoop fetch today k (m + 1) =
      ([today - (k : Int)], .ok (today - (k : Int), ps)) := by
    cases ps with
    | nil => exact absurd rfl hps
    | cons p ps2 => simp [fallbackLoop, hhit]
  simp only [Nat.zero_add, Nat.cast_zero, zero_add, hm, hstep]
  rw [List.range_succ, List.map_append]
  simp

theorem claim_C3_witness :
    get_daily_papers_with_fallback
        (fun d => if d = (97 : Int) then
            (.ok [⟨Json.str "t", "", Json.str "", Json.str ""⟩] : Except Unit (List RawPaper))
          else .ok [])
        100 3 =
      ([100, 99, 98, 97], .ok (97, [⟨Json.str "t", "", Json.str "", Json.str ""⟩])) := by
  have h := claim_C3
    (fun d => if d = (97 : Int) then
        (.ok [⟨Json.str "t", "", Json.str "", Json.str ""⟩] : Except Unit (List RawPaper))
      else .ok [])
    100 3 3 [⟨Json.str "t", "", Json.str "", Json.str ""⟩] (by omega)
    (fun j hj => by interval_cases j <;> rfl) rfl (by simp)
  exact h

/-! ## Claim C4 -/

/-- Claim C4: when every candidate date in the fallback range yields an
empty list, the walk returns today's date paired with an empty list — not
the oldest tried date. -/
theorem claim_C4 {ε : Type} (fetch : Int → Except ε (List RawPaper)) (today : Int)
    (max_days_back : Int)
    (hempty : ∀ j : Nat, (j : Int) ≤ max_days_back → fetch (today - (j : Int)) = .ok []) :
    (get_daily_papers_with_fallback fetch today max_days_back).2 = .ok (today, []) := by
  unfold get_daily_papers_with_fallback
  rw [fallbackLoop_all_empty fetch today _ (fun j hj => hempty j (by omega))]

theorem claim_C4_witness :
    (get_daily_papers_with_fallback (fun _ => (.ok [] : Except Unit (List RawPaper)))
        100 3).2 = .ok (100, []) :=
  claim_C4 (fun _ => (.ok [] : Except Unit (List RawPaper))) 100 3 (fun _ _ => rfl)

/-! ## Claim C5 -/

/-- Claim C5: a transport failure while fetching any single candidate date
is not swallowed: it propagates as the result of the whole walk, the walk
stops right there (the trace ends at the failing date), and the failure is
not converted into an empty "no papers" success. -/
theorem claim_C5 {ε : Type} (fetch : Int → Except ε (List RawPaper)) (today : Int)
    (max_days_back : Int) (k : Nat) (e : ε)
    (hk : (k : Int) ≤ max_days_back)
    (hempty : ∀ j : Nat, j < k → fetch (today - (j : Int)) = .ok [])
    (herr : fetch (today - (k : Int)) = .error e) :
    get_daily_papers_with_fallback fetch today max_days_back =
      ((List.range (k + 1)).map (fun j : Nat => today - (j : Int)), .error e) := by
  unfold get_daily_papers_with_fallback
  have hs := fallbackLoop_skip fetch today k 0 ((max_days_back + 1).toNat) (by omega)
    (fun j hj => by simpa using hempty j hj)
  rw [hs]
  obtain ⟨m, hm⟩ : ∃ m, (max_days_back + 1).toNat - k = m + 1 :=
    ⟨(max_days_back + 1).toNat - k - 1, by omega⟩
  have hstep : fallbackLoop fetch today k (m + 1) =
      ([today - (k : Int)], .error e) := by
    simp [fallbackLoop, herr]
  simp only [Nat.zero_add, Nat.cast_zero, zero_add, hm, hstep]
  rw [List.range_succ, List.map_append]
  simp

theorem claim_C5_witness :
    get_daily_papers_with_fallback
        (fun d => if d = (99 : Int) then (.error "timeout" : Except String (List RawPaper))
          else .ok [])
        100 3 =
      ([100, 99], .error "timeout") := by
  have h := claim_C5
    (fun d => if d = (99 : Int) then (.error "timeout" : Except String (List RawPaper))
      else .ok [])
    100 3 1 "timeout" (by omega)
    (fun j hj => by
      have hj0 : j = 0 := by omega
      subst hj0
      rfl)
    rfl
  exact h

/-! ## Claim C10 -/

/-- Claim C10: when every candidate date is empty and `max_days_back ≥ 0`
the walk performs exactly `max_days_back + 1` fetch calls; a negative
`max_days_back` produces zero fetch calls, and the result is still today's
date paired with an empty list. -/
theorem claim_C10 {ε : Type} (fetch : Int → Except ε (List RawPaper)) (today : Int)
    (max_days_back : Int) :
    (0 ≤ max_days_back →
      (∀ j : Nat, (j : Int) ≤ max_days_back → fetch (today - (j : Int)) = .ok []) →
      ((get_daily_papers_with_fallback fetch today max_days_back).1.length : Int) =
          max_days_back + 1 ∧
        (get_daily_papers_with_fallback fetch today max_days_back).2 = .ok (today, [])) ∧
    (max_days_back < 0 →
      get_daily_papers_with_fallback fetch today max_days_back = ([], .ok (today, []))) := by
  constructor
  · intro hpos hempty
    unfold get_daily_papers_with_fallback
    rw [fallbackLoop_all_empty fetch today _ (fun j hj => hempty j (by omega))]
    refine ⟨?_, rfl⟩
    simp only [List.length_map, List.length_range]
    omega
  · intro hneg
    unfold get_daily_papers_with_fallback
    have h0 : (max_days_back + 1).toNat = 0 := by omega
    rw [h0]
    rfl

theorem claim_C10_witness :
    (((get_daily_papers_with_fallback (fun _ => (.ok [] : Except Unit (List RawPaper)))
          100 3).1.length : Int) = 3 + 1 ∧
      (get_daily_papers_with_fallback (fun _ => (.ok [] : Except Unit (List RawPaper)))
          100 3).2 = .ok (100, [])) ∧
    get_daily_papers_with_fallback (fun _ => (.ok [] : Except Unit (List RawPaper)))
        100 (-2) = ([], .ok (100, [])) :=
  ⟨(claim_C10 (fun _ => (.ok [] : Except Unit (List RawPaper))) 100 3).1 (by omega)
      (fun _ _ => rfl),
    (claim_C10 (fun _ => (.ok [] : Except Unit (List RawPaper))) 100 (-2)).2 (by omega)⟩

/-! ## Claim C6 -/

/-- Claim C6: on an entry object whose raw `authors` value is a sequence,
the script maps each element to a display name (`name`, then `fullName`,
then `displayName` for an object; the string itself for a plain string;
elements yielding no name are dropped — this is `resolveName`, the
verbatim embedding of lines 36-42) and joins the names with `", "` in input
order; a raw authors value that is already a string is used verbatim; any
other shape yields the empty string.  The list case assumes the resolved
display names are strings (on non-string names the Python join would
raise). -/
theorem claim_C6 (o : Json) :
    (∀ elems, o.get "authors" = .arr elems →
        (∀ n ∈ elems.filterMap resolveName, n.isStr = true) →
        authorsStrOf o =
          .ok (sepJoin ", " ((elems.filterMap resolveName).filterMap strOfJson))) ∧
    (∀ s, o.get "authors" = .str s → authorsStrOf o = .ok s) ∧
    ((o.get "authors").isStr = false → (∀ xs, o.get "authors" ≠ .arr xs) →
        authorsStrOf o = .ok "") := by
  refine ⟨?_, ?_, ?_⟩
  · intro elems ha hstr
    unfold authorsStrOf
    rw [ha]
    have hj : jor (.arr elems) (.arr []) = .arr elems := by
      cases elems with
      | nil => rfl
      | cons e es => rfl
    rw [hj]
    simp [pyJoin, mapStrs_all_str _ hstr]
  · intro s ha
    unfold authorsStrOf
    rw [ha]
    by_cases hs : s = ""
    · subst hs
      rfl
    · have hj : jor (.str s) (.arr []) = .str s := by
        simp [jor, Json.truthy, hs]
      rw [hj]
  · intro hs hna
    unfold authorsStrOf
    rcases hv : o.get "authors" with _ | b | n | s | xs | fs
    · rfl
    · cases b
      · rfl
      · rfl
    · by_cases hn : n = 0
      · subst hn; rfl
      · have hj : jor (.num n) (.arr []) = .num n := by
          simp [jor, Json.truthy, hn]
        rw [hj]
    · rw [hv] at hs
      simp [Json.isStr] at hs
    · exact absurd hv (hna xs)
    · by_cases hf : fs = []
      · subst hf; rfl
      · have hj : jor (.obj fs) (.arr []) = .obj fs := by
          simp [jor, Json.truthy, hf]
        rw [hj]

theorem claim_C6_witness :
    authorsStrOf (Json.obj [("authors", Json.arr
        [Json.str "Alice", Json.obj [("fullName", Json.str "Bob")], Json.num 3,
         Json.obj [("x", Json.num 1)]])]) = .ok "Alice, Bob" := by
  have h := (claim_C6 (Json.obj [("authors", Json.arr
      [Json.str "Alice", Json.obj [("fullName", Json.str "Bob")], Json.num 3,
       Json.obj [("x", Json.num 1)]])])).1
    [Json.str "Alice", Json.obj [("fullName", Json.str "Bob")], Json.num 3,
     Json.obj [("x", Json.num 1)]] rfl ?_
  · exact h
  · intro n hn
    have hev : [Json.str "Alice", Json.obj [("fullName", Json.str "Bob")], Json.num 3,
        Json.obj [("x", Json.num 1)]].filterMap resolveName =
        [Json.str "Alice", Json.str "Bob"] := rfl
    rw [hev] at hn
    rcases List.mem_cons.mp hn with rfl | hn
    · rfl
    · rcases List.mem_cons.mp hn with rfl | hn
      · rfl
      · exact absurd hn (List.not_mem_nil n)

/-! ## Claim C7 -/

theorem isPrefixOf_append_self (l x : List Char) : l.isPrefixOf (l ++ x) = true := by
  induction l with
  | nil => simp
  | cons c cs ih => simp [List.isPrefixOf, ih]

theorem mk_data (s : String) : String.mk s.data = s := rfl

theorem data_title_line (s : String) : ("- " ++ s).data = titleMark ++ s.data := by
  rw [String.data_append]; rfl

theorem data_authors_line (s : String) : ("  作者: " ++ s).data = authorsMark ++ s.data := by
  rw [String.data_append]; rfl

theorem data_abstract_line (s : String) : ("  摘要: " ++ s).data = abstractMark ++ s.data := by
  rw [String.data_append]; rfl

theorem data_url_line (s : String) : ("  链接: " ++ s).data = urlMark ++ s.data := by
  rw [String.data_append]; rfl

theorem splitNL_no_sep (l : List Char) (h : '\n' ∉ l) : splitNL l = [l] := by
  induction l with
  | nil => rfl
  | cons c cs ih =>
    have hc : ¬ c = '\n' := fun hec => h (hec ▸ List.mem_cons_self c cs)
    have ihs := ih (fun hm => h (List.mem_cons_of_mem c hm))
    unfold splitNL at ihs ⊢
    simp [splitChar, hc, ihs]

theorem splitNL_append (l rest : List Char) (h : '\n' ∉ l) :
    splitNL (l ++ '\n' :: rest) = l :: splitNL rest := by
  induction l with
  | nil => simp [splitNL, splitChar]
  | cons c cs ih =>
    have hc : ¬ c = '\n' := fun hec => h (hec ▸ List.mem_cons_self c cs)
    have ihs := ih (fun hm => h (List.mem_cons_of_mem c hm))
    unfold splitNL at ihs ⊢
    simp only [List.cons_append, splitChar, hc, if_false]
    rw [show cs.append ('\n' :: rest) = cs ++ '\n' :: rest from rfl, ihs]

theorem joinNL_data_cons (s r : String) (rest : List String) :
    (joinNL (s :: r :: rest)).data = s.data ++ '\n' :: (joinNL (r :: rest)).data := by
  show ((s ++ "\n") ++ joinNL (r :: rest)).data = _
  rw [String.data_append, String.data_append]
  simp

theorem splitNL_joinNL (lines : List String) (hne : lines ≠ [])
    (h : ∀ l ∈ lines, '\n' ∉ l.data) :
    splitNL (joinNL lines).data = lines.map String.data := by
  induction lines with
  | nil => exact absurd rfl hne
  | cons s rest ih =>
    cases rest with
    | nil =>
      show splitNL s.data = [s.data]
      exact splitNL_no_sep s.data (h s (List.mem_cons_self _ _))
    | cons r rest2 =>
      rw [joinNL_data_cons, splitNL_append _ _ (h s (List.mem_cons_self _ _)),
        ih (by simp) (fun l hl => h l (List.mem_cons_of_mem _ hl))]
      simp

theorem parseMore_title_step (cur : PaperRecord) (t : String) (ls : List (List Char)) :
    parseMore cur (("- " ++ t).data :: ls) = cur :: parseMore ⟨t, "", "", ""⟩ ls := by
  rw [data_title_line]
  have hpre : titleMark.isPrefixOf (titleMark ++ t.data) = true := isPrefixOf_append_self _ _
  have hdrop : (titleMark ++ t.data).drop 2 = t.data := rfl
  simp [parseMore, hpre, startRec, hdrop, mk_data]

theorem parseMore_authors_step (cur : PaperRecord) (s : String) (ls : List (List Char)) :
    parseMore cur (("  作者: " ++ s).data :: ls) =
      parseMore ⟨cur.title, s, cur.abstract, cur.url⟩ ls := by
  rw [data_authors_line]
  have hnt : titleMark.isPrefixOf (authorsMark ++ s.data) = false := rfl
  have hpre : authorsMark.isPrefixOf (authorsMark ++ s.data) = true := isPrefixOf_append_self _ _
  simp [parseMore, hnt, updateRec, hpre, List.drop_left, mk_data]

theorem parseMore_abstract_step (cur : PaperRecord) (s : String) (ls : List (List Char)) :
    parseMore cur (("  摘要: " ++ s).data :: ls) =
      parseMore ⟨cur.title, cur.authors, s, cur.url⟩ ls := by
  rw [data_abstract_line]
  have hnt : titleMark.isPrefixOf (abstractMark ++ s.data) = false := rfl
  have hna : authorsMark.isPrefixOf (abstractMark ++ s.data) = false := rfl
  have hpre : abstractMark.isPrefixOf (abstractMark ++ s.data) = true := isPrefixOf_append_self _ _
  simp [parseMore, hnt, updateRec, hna, hpre, List.drop_left, mk_data]

theorem parseMore_url_step (cur : PaperRecord) (s : String) (ls : List (List Char)) :
    parseMore cur (("  链接: " ++ s).data :: ls) =
      parseMore ⟨cur.title, cur.authors, cur.abstract, s⟩ ls := by
  rw [data_url_line]
  have hnt : titleMark.isPrefixOf (urlMark ++ s.data) = false := rfl
  have hna : authorsMark.isPrefixOf (urlMark ++ s.data) = false := rfl
  have hnb : abstractMark.isPrefixOf (urlMark ++ s.data) = false := rfl
  have hpre : urlMark.isPrefixOf (urlMark ++ s.data) = true := isPrefixOf_append_self _ _
  simp [parseMore, hnt, updateRec, hna, hnb, hpre, List.drop_left, mk_data]

theorem parseMore_fields (p : PaperRecord) (tail : List (List Char)) :
    parseMore ⟨p.title, "", "", ""⟩ ((paperFieldLines p).map String.data ++ tail) =
      parseMore p tail := by
  obtain ⟨t, a, b, u⟩ := p
  by_cases ha : a = "" <;> by_cases hb : b = "" <;> by_cases hu : u = "" <;>
    simp only [paperFieldLines, ha, hb, hu, if_pos, if_neg, if_true, if_false,
      List.nil_append, List.append_nil, List.singleton_append, List.cons_append,
      List.map_cons, List.map_nil] <;>
    subst_eqs <;>
    first
      | rfl
      | (repeat first
          | rw [parseMore_authors_step]
          | rw [parseMore_abstract_step]
          | rw [parseMore_url_step])

theorem parseMore_flatten (papers : List PaperRecord) :
    ∀ cur : PaperRecord,
      parseMore cur (((papers.map paperTextLines).flatten).map String.data) =
        cur :: papers := by
  induction papers with
  | nil => intro cur; rfl
  | cons p rest ih =>
    intro cur
    simp only [List.map_cons, List.flatten_cons, List.map_append, paperTextLines,
      List.cons_append]
    rw [parseMore_title_step, parseMore_fields, ih p]

theorem parseTop_title_step (t : String) (ls : List (List Char)) :
    parseTop (("- " ++ t).data :: ls) = parseMore ⟨t, "", "", ""⟩ ls := by
  rw [data_title_line]
  have hpre : titleMark.isPrefixOf (titleMark ++ t.data) = true := isPrefixOf_append_self _ _
  have hdrop : (titleMark ++ t.data).drop 2 = t.data := rfl
  simp [parseTop, hpre, startRec, hdrop, mk_data]

theorem parseTop_skip (l : List Char) (ls : List (List Char))
    (h : titleMark.isPrefixOf l = false) : parseTop (l :: ls) = parseTop ls := by
  simp [parseTop, h]

theorem parseTop_flatten (papers : List PaperRecord) :
    parseTop (((papers.map paperTextLines).flatten).map String.data) = papers := by
  cases papers with
  | nil => rfl
  | cons p rest =>
    simp only [List.map_cons, List.flatten_cons, List.map_append, paperTextLines,
      List.cons_append]
    rw [parseTop_title_step, parseMore_fields, parseMore_flatten]

theorem no_newline_append {a b : String} (ha : '\n' ∉ a.data) (hb : '\n' ∉ b.data) :
    '\n' ∉ (a ++ b).data := by
  rw [String.data_append]
  intro hm
  rcases List.mem_append.mp hm with h | h
  · exact ha h
  · exact hb h

theorem emailTextLines_no_newline (date_str : String) (papers : List PaperRecord)
    (hdate : '\n' ∉ date_str.data)
    (hfields : ∀ p ∈ papers, '\n' ∉ p.title.data ∧ '\n' ∉ p.authors.data ∧
      '\n' ∉ p.abstract.data ∧ '\n' ∉ p.url.data) :
    ∀ l ∈ emailTextLines date_str papers, '\n' ∉ l.data := by
  intro l hl
  unfold emailTextLines at hl
  by_cases hp : papers.isEmpty
  · rw [if_pos hp] at hl
    rcases List.mem_cons.mp hl with rfl | hl2
    · exact no_newline_append (by decide) hdate
    · rcases List.mem_cons.mp hl2 with rfl | hl3
      · exact no_newline_append hdate (by decide)
      · exact absurd hl3 (List.not_mem_nil l)
  · rw [if_neg hp] at hl
    rcases List.mem_cons.mp hl with rfl | hl2
    · exact no_newline_append (by decide) hdate
    · obtain ⟨ls, hls, hlin⟩ := List.mem_flatten.mp hl2
      obtain ⟨p, hpmem, rfl⟩ := List.mem_map.mp hls
      obtain ⟨ht, ha, hb, hu⟩ := hfields p hpmem
      rcases List.mem_cons.mp hlin with rfl | hlf
      · exact no_newline_append (by decide) ht
      · unfold paperFieldLines at hlf
        rcases List.mem_append.mp hlf with hx | hx
        · rcases List.mem_append.mp hx with hy | hy
          · by_cases hay : p.authors = ""
            · rw [if_pos hay] at hy
              exact absurd hy (List.not_mem_nil l)
            · rw [if_neg hay] at hy
              rcases List.mem_cons.mp hy with rfl | hy2
              · exact no_newline_append (by decide) ha
              · exact absurd hy2 (List.not_mem_nil l)
          · by_cases hby : p.abstract = ""
            · rw [if_pos hby] at hy
              exact absurd hy (List.not_mem_nil l)
            · rw [if_neg hby] at hy
              rcases List.mem_cons.mp hy with rfl | hy2
              · exact no_newline_append (by decide) hb
              · exact absurd hy2 (List.not_mem_nil l)
        · by_cases huy : p.url = ""
          · rw [if_pos huy] at hx
            exact absurd hx (List.not_mem_nil l)
          · rw [if_neg huy] at hx
            rcases List.mem_cons.mp hx with rfl | hx2
            · exact no_newline_append (by decide) hu
            · exact absurd hx2 (List.not_mem_nil l)

/-- Claim C7, counterexample: a title containing a newline followed by the
`"- "` marker makes `build_email_text` render two different paper lists to
the very same digest, so the plain-text form cannot be re-parsed back — the
renderer is not injective on arbitrary paper lists. -/
theorem claim_C7_counterexample :
    build_email_text "d" [⟨"A\n- B", "", "", ""⟩] =
      build_email_text "d" [⟨"A", "", "", ""⟩, ⟨"B", "", "", ""⟩] ∧
    ([⟨"A\n- B", "", "", ""⟩] : List PaperRecord) ≠
      [⟨"A", "", "", ""⟩, ⟨"B", "", "", ""⟩] :=
  ⟨rfl, by decide⟩

/-- Claim C7 (amended): for every date and paper list whose date and whose
four fields of every paper contain no newline character — and whose date
does not begin the no-papers placeholder line with the `"- "` title marker —
re-parsing the plain-text digest recovers title, authors, abstract and url
of every paper, in the original input order (given the newline restriction
the renderer is injective on the paper list and preserves ordering with no
sorting or deduplication). -/
theorem claim_C7 (date_str : String) (papers : List PaperRecord)
    (hdate : '\n' ∉ date_str.data)
    (hfields : ∀ p ∈ papers, '\n' ∉ p.title.data ∧ '\n' ∉ p.authors.data ∧
      '\n' ∉ p.abstract.data ∧ '\n' ∉ p.url.data)
    (hplaceholder :
      titleMark.isPrefixOf ((date_str ++ " 暂无可用的 Daily Papers。").data) = false) :
    parseDigestText (build_email_text date_str papers) = papers := by
  unfold parseDigestText build_email_text
  rw [splitNL_joinNL (emailTextLines date_str papers)
    (by unfold emailTextLines; by_cases hp : papers.isEmpty <;> simp [hp])
    (emailTextLines_no_newline date_str papers hdate hfields)]
  unfold emailTextLines
  by_cases hp : papers.isEmpty
  · rw [if_pos hp]
    have hpnil : papers = [] := List.isEmpty_iff.mp hp
    subst hpnil
    rw [List.map_cons, List.map_cons, List.map_nil,
      parseTop_skip _ _ (by rw [String.data_append]; rfl), parseTop_skip _ _ hplaceholder]
    rfl
  · rw [if_neg hp]
    rw [List.map_cons, parseTop_skip _ _ (by rw [String.data_append]; rfl)]
    exact parseTop_flatten papers

theorem claim_C7_witness :
    parseDigestText (build_email_text "2024-01-02"
        [⟨"Title A", "Alice, Bob", "Some abstract", "https://x/y"⟩, ⟨"Title B", "", "", ""⟩]) =
      [⟨"Title A", "Alice, Bob", "Some abstract", "https://x/y"⟩, ⟨"Title B", "", "", ""⟩] :=
  claim_C7 "2024-01-02"
    [⟨"Title A", "Alice, Bob", "Some abstract", "https://x/y"⟩, ⟨"Title B", "", "", ""⟩]
    (by decide) (by decide) (by decide)

/-! ## Claim C8 -/

theorem containsSeg_titleHtml (p : PaperRecord) :
    containsSeg (paperTitleHtml p) (paperCard p) := by
  unfold paperCard
  refine ⟨"<div class=\"card\">",
    "<div class=\"meta\">" ++ p.authors ++ "</div><div class=\"abstract\">" ++ p.abstract ++
      "</div></div>", ?_⟩
  simp [String.append_assoc]

theorem containsSeg_card_concat {p : PaperRecord} {papers : List PaperRecord}
    (hp : p ∈ papers) : containsSeg (paperCard p) (strConcat (papers.map paperCard)) := by
  induction papers with
  | nil => cases hp
  | cons q rest ih =>
    rcases List.mem_cons.mp hp with rfl | hp2
    · exact ⟨"", strConcat (rest.map paperCard), by
        simp [strConcat, String.empty_append, String.append_assoc]⟩
    · exact containsSeg_append_left (paperCard q) (ih hp2)

/-- Claim C8: for every paper of the rendered list, the HTML digest contains
a non-linked title element (`<div class="paper-title">…</div>`) when the
paper's url is empty, and a linked title element whose `href` target is
exactly that url when it is non-empty. -/
theorem claim_C8 (date_str : String) (papers : List PaperRecord) (p : PaperRecord)
    (hp : p ∈ papers) :
    (p.url = "" →
      containsSeg ("<div class=\"paper-title\">" ++ p.title ++ "</div>")
        (build_email_html date_str papers)) ∧
    (p.url ≠ "" →
      containsSeg ("<a class=\"paper-title\" href=\"" ++ p.url ++ "\" target=\"_blank\">" ++
          p.title ++ "</a>")
        (build_email_html date_str papers)) := by
  have hbody : containsSeg (paperTitleHtml p) (build_email_html date_str papers) := by
    unfold build_email_html
    have hne : (papers.map paperCard).isEmpty = false := by
      cases papers with
      | nil => cases hp
      | cons q rest => rfl
    have hbody2 : htmlBody date_str papers = strConcat (papers.map paperCard) := by
      unfold htmlBody
      rw [hne]
      simp
    rw [hbody2]
    exact containsSeg_append_right _ (containsSeg_append_right _ (containsSeg_append_right _
      (containsSeg_append_right _ (containsSeg_append_left _
        (containsSeg_trans (containsSeg_titleHtml p) (containsSeg_card_concat hp))))))
  constructor
  · intro hu
    have ht : paperTitleHtml p = "<div class=\"paper-title\">" ++ p.title ++ "</div>" := by
      unfold paperTitleHtml
      rw [if_pos hu]
    rw [ht] at hbody
    exact hbody
  · intro hu
    have ht : paperTitleHtml p =
        "<a class=\"paper-title\" href=\"" ++ p.url ++ "\" target=\"_blank\">" ++
          p.title ++ "</a>" := by
      unfold paperTitleHtml
      rw [if_neg hu]
    rw [ht] at hbody
    exact hbody

theorem claim_C8_witness :
    containsSeg ("<div class=\"paper-title\">" ++ "Ti" ++ "</div>")
      (build_email_html "2024-01-01"
        [⟨"Ti", "Au", "Ab", ""⟩, ⟨"T2", "A2", "B2", "https://u"⟩]) ∧
    containsSeg ("<a class=\"paper-title\" href=\"" ++ "https://u" ++ "\" target=\"_blank\">" ++
        "T2" ++ "</a>")
      (build_email_html "2024-01-01"
        [⟨"Ti", "Au", "Ab", ""⟩, ⟨"T2", "A2", "B2", "https://u"⟩]) :=
  ⟨(claim_C8 "2024-01-01" [⟨"Ti", "Au", "Ab", ""⟩, ⟨"T2", "A2", "B2", "https://u"⟩]
      ⟨"Ti", "Au", "Ab", ""⟩ (List.mem_cons_self _ _)).1 rfl,
    (claim_C8 "2024-01-01" [⟨"Ti", "Au", "Ab", ""⟩, ⟨"T2", "A2", "B2", "https://u"⟩]
      ⟨"T2", "A2", "B2", "https://u"⟩
      (List.mem_cons_of_mem _ (List.mem_cons_self _ _))).2 (by decide)⟩

/-! ## Claim C9 -/

/-- Claim C9: `send_email` fails fast with the configuration error — before
any network phase is reached (no `SendPlan` is produced) — whenever the mail
host, port, username, password, or the parsed recipient list is
empty/unset; in particular when the recipient list parses to empty. -/
theorem claim_C9 (cfg : MailConfig) (subject html_body text_body : String)
    (h : cfg.smtp_host = "" ∨ cfg.smtp_port = 0 ∨ cfg.smtp_user = "" ∨ cfg.smtp_pass = "" ∨
      parseRecipients cfg.mail_to_raw = []) :
    send_email cfg subject html_body text_body = .error "邮件发送配置不完整" := by
  unfold send_email
  rw [if_pos h]

theorem claim_C9_witness :
    send_email ⟨"smtp.example.com", 587, "user", "hunter2", "", " ; , "⟩ "s" "hb" "tb" =
      .error "邮件发送配置不完整" :=
  claim_C9 ⟨"smtp.example.com", 587, "user", "hunter2", "", " ; , "⟩ "s" "hb" "tb"
    (Or.inr (Or.inr (Or.inr (Or.inr rfl))))

end DailyPaper
